import Mathlib

/-!
Verification development for the Google Drive index backend.

The definitions below are a shallow embedding of the backend's SQLite index
store (`backend/index_db.py`), its query layer (`backend/queries.py`),
the cache coordinator (`backend/cache.py`), the analytics semantic rules
(`backend/analytics.py`), the health-check MIME breakdown
(`backend/health_checks.py`), and the mutation traces of the crawl and sync
pipelines (`backend/crawl_full.py`, `backend/sync_changes.py`).

Embedding conventions:
* SQLite tables are lists of rows in insertion order; `INSERT ... ON CONFLICT
  DO UPDATE` updates rows in place, plain inserts append.
* Nullable columns are `Option` values; SQL `NULL` is `none`.
* Python truthiness tests on strings/ints are made explicit
  (empty string and zero are falsy).
* JSON "size" values can be absent, null, a string, or a number; the
  inductive `SizeVal` captures exactly those shapes.
-/

/-- The shapes the JSON `size` field of a Drive file payload can take.
Drive usually sends sizes as decimal strings; the backend also tolerates
numbers, `null`, and a missing key. -/
inductive SizeVal
  | absent
  | null
  | str (s : String)
  | int (n : Int)
deriving DecidableEq, Repr

/-- Python truthiness of a `size` value: `None`, a missing key, the empty
string, and the number `0` are falsy (mirrors `if file_dict.get("size")`). -/
def SizeVal.truthy : SizeVal → Bool
  | .absent => false
  | .null => false
  | .str s => s ≠ ""
  | .int n => n ≠ 0

/-- Python `int(...)` applied to a truthy size value.  `int` of an
unparseable string raises in the source and lands in the caller's
per-record error path; here it defaults to 0, which no claim exercises. -/
def SizeVal.toIntVal : SizeVal → Int
  | .absent => 0
  | .null => 0
  | .str s => (s.toInt?).getD 0
  | .int n => n

/-- The `size` column stored by `upsert_file`:
`int(file_dict.get("size")) if file_dict.get("size") else None`. -/
def sizeColumn (v : SizeVal) : Option Int :=
  if v.truthy then some v.toIntVal else none

/-- A Drive API file payload (`file_dict` in `index_db.upsert_file`).
`owners` and `capabilities` are opaque JSON retained for the UI; they are
modelled as their serialized form.  `shortcutDetails` is flattened to its
two fields (`file_dict.get("shortcutDetails") or {}` then `.get(...)`). -/
structure FileDict where
  id : Option String := none
  name : Option String := none
  mimeType : Option String := none
  trashed : Bool := false
  createdTime : Option String := none
  modifiedTime : Option String := none
  size : SizeVal := .absent
  md5Checksum : Option String := none
  ownedByMe : Bool := false
  owners : Option String := none
  capabilities : Option String := none
  shortcutTargetId : Option String := none
  shortcutTargetMime : Option String := none
  starred : Bool := false
  webViewLink : Option String := none
  iconLink : Option String := none
  parents : List String := []
deriving DecidableEq, Repr

/-- MIME sentinel for shortcuts. -/
def shortcutMime : String := "application/vnd.google-apps.shortcut"

/-- MIME sentinel for folders. -/
def folderMime : String := "application/vnd.google-apps.folder"

/-- One row of the `files` table (schema in `index_db.init_db`). -/
structure FileRow where
  id : String
  name : Option String := none
  mime_type : String := ""
  trashed : Bool := false
  created_time : Option String := none
  modified_time : Option String := none
  size : Option Int := none
  md5 : Option String := none
  owned_by_me : Bool := false
  owners_json : Option String := none
  capabilities_json : Option String := none
  is_shortcut : Bool := false
  shortcut_target_id : Option String := none
  shortcut_target_mime : Option String := none
  starred : Bool := false
  web_view_link : Option String := none
  icon_link : Option String := none
  raw_json : FileDict := {}
  removed : Bool := false
deriving DecidableEq, Repr

/-- The index store: `files` rows, `parents` edge rows `(parent_id, child_id)`
and the `sync_state` key/value table, each in insertion order. -/
structure DB where
  files : List FileRow := []
  parents : List (String × String) := []
  sync_state : List (String × String) := []
deriving DecidableEq, Repr

/-- The row `upsert_file` writes for a file payload whose id is `fid`
(column expressions of the `INSERT`/`DO UPDATE` in `index_db.upsert_file`). -/
def rowOfDict (fd : FileDict) (fid : String) : FileRow :=
  { id := fid
    name := fd.name
    mime_type := fd.mimeType.getD ""
    trashed := fd.trashed
    created_time := fd.createdTime
    modified_time := fd.modifiedTime
    size := sizeColumn fd.size
    md5 := fd.md5Checksum
    owned_by_me := fd.ownedByMe
    owners_json := fd.owners
    capabilities_json := fd.capabilities
    is_shortcut := fd.mimeType.getD "" = shortcutMime
    shortcut_target_id := fd.shortcutTargetId
    shortcut_target_mime := fd.shortcutTargetMime
    starred := fd.starred
    web_view_link := fd.webViewLink
    icon_link := fd.iconLink
    raw_json := fd
    removed := false }

/-- `index_db.upsert_file`: no-op on a missing/empty id, otherwise
`INSERT ... ON CONFLICT(id) DO UPDATE` with `removed = 0`. -/
def upsert_file (db : DB) (fd : FileDict) : DB :=
  match fd.id with
  | none => db
  | some fid =>
    if fid = "" then db
    else
      let row := rowOfDict fd fid
      if db.files.any (fun r => r.id = fid) then
        { db with files := db.files.map (fun r => if r.id = fid then row else r) }
      else
        { db with files := db.files ++ [row] }

/-- One `INSERT OR IGNORE INTO parents` step (ignores a duplicate primary
key `(parent_id, child_id)`). -/
def insertEdge (edges : List (String × String)) (p c : String) :
    List (String × String) :=
  if edges.any (fun e => e = (p, c)) then edges else edges ++ [(p, c)]

/-- `index_db.replace_parents`: delete all edges of the child, then
`INSERT OR IGNORE` each new parent edge in order. -/
def replace_parents (db : DB) (child_id : String) (parent_ids : List String) : DB :=
  { db with
      parents :=
        parent_ids.foldl (fun acc p => insertEdge acc p child_id)
          (db.parents.filter (fun e => e.2 ≠ child_id)) }

/-- `index_db.mark_file_removed`: set `removed = 1` on the row and delete all
edges with `child_id = file_id`. -/
def mark_file_removed (db : DB) (fid : String) : DB :=
  { db with
      files := db.files.map (fun r => if r.id = fid then { r with removed := true } else r)
      parents := db.parents.filter (fun e => e.2 ≠ fid) }

/-- `index_db.set_sync_state`: `INSERT OR REPLACE` on the key/value table. -/
def set_sync_state (db : DB) (key value : String) : DB :=
  { db with
      sync_state :=
        if db.sync_state.any (fun kv => kv.1 = key) then
          db.sync_state.map (fun kv => if kv.1 = key then (key, value) else kv)
        else db.sync_state ++ [(key, value)] }

/-- `index_db.get_sync_state`. -/
def get_sync_state (db : DB) (key : String) : Option String :=
  (db.sync_state.find? (fun kv => kv.1 = key)).map (·.2)

/-- `index_db.get_file_by_id`: `SELECT * FROM files WHERE id = ? AND removed = 0`,
first row or `None`. -/
def get_file_by_id (db : DB) (fid : String) : Option FileRow :=
  db.files.find? (fun r => r.id = fid && !r.removed)

/-- `index_db.get_all_files` with its two inclusion flags. -/
def get_all_files (db : DB) (include_trashed : Bool := false)
    (include_removed : Bool := false) : List FileRow :=
  db.files.filter (fun r =>
    (include_removed || !r.removed) && (include_trashed || !r.trashed))

/-- `index_db.get_parents`: parent ids of a child, in edge order. -/
def get_parents (db : DB) (child_id : String) : List String :=
  (db.parents.filter (fun e => e.2 = child_id)).map (·.1)

/-- `index_db.get_children`: child ids of a parent, in edge order. -/
def get_children (db : DB) (parent_id : String) : List String :=
  (db.parents.filter (fun e => e.1 = parent_id)).map (·.2)

/-! ## Query layer (`backend/queries.py`) -/

/-- Recursive body of `queries.get_paths`.  The Python `build_paths` carries
`depth` and returns when `depth > max_depth`; here `fuel = max_depth + 1 - depth`
so the guard becomes the `0` pattern.  The shared mutable `paths` list is the
threaded accumulator.  A path element is the parent row's name
(`parent.get("name", parent_id)`; the id is the fallback). -/
def build_paths (db : DB) (max_paths : Nat) :
    Nat → String → List String → List (List String) → List (List String)
  | 0, _, _, paths => paths
  | fuel + 1, current_id, current_path, paths =>
    if max_paths ≤ paths.length then paths
    else
      let parent_ids := get_parents db current_id
      if parent_ids.isEmpty then paths ++ [current_path.reverse]
      else
        parent_ids.foldl (fun acc pid =>
          if max_paths ≤ acc.length then acc
          else
            match get_file_by_id db pid with
            | some parent =>
                build_paths db max_paths fuel pid
                  (current_path ++ [parent.name.getD pid]) acc
            | none => acc ++ [current_path.reverse]) paths

/-- `queries.get_paths`: all root-to-parent name paths of a file, up to
`max_paths` paths of at most `max_depth` folders; `[[]]` when none found. -/
def get_paths (db : DB) (file_id : String) (max_paths : Nat := 5)
    (max_depth : Nat := 50) : List (List String) :=
  let paths := build_paths db max_paths (max_depth + 1) file_id [] []
  if paths.isEmpty then [[]] else paths

/-- `queries.get_primary_path`: the first path found with `max_paths = 1`,
rendered as a string, `"Root"` when it is empty. -/
def get_primary_path (db : DB) (file_id : String) : String :=
  let paths := get_paths db file_id 1 50
  match paths.head? with
  | none => "Root"
  | some p => if p.isEmpty then "Root" else "/" ++ String.intercalate "/" p

/-- The distinct keys of a list, in first-occurrence order. -/
def firstKeys {α κ : Type} [DecidableEq κ] (key : α → κ) (l : List α) : List κ :=
  l.foldl (fun acc x => if key x ∈ acc then acc else acc ++ [key x]) []

/-- Group a list by a key, keeping groups in first-occurrence order of their
keys and members in list order (the row aggregation of a SQL `GROUP BY`). -/
def groupByKeyF {α κ : Type} [DecidableEq κ] (key : α → κ) (l : List α) :
    List (κ × List α) :=
  (firstKeys key l).map (fun k => (k, l.filter (fun x => key x = k)))

/-- The `WHERE` clause of `queries.get_duplicate_groups`. -/
def dup_filter (min_size : Int) (r : FileRow) : Bool :=
  r.md5.isSome && r.size.isSome && decide (min_size ≤ r.size.getD 0) &&
    !r.trashed && !r.removed && !r.is_shortcut

/-- The `GROUP BY md5, size` key of `queries.get_duplicate_groups` (both
columns are non-null on the filtered rows, so the defaults never show). -/
def dup_key (r : FileRow) : String × Int :=
  (r.md5.getD "", r.size.getD 0)

/-- One result group of `queries.get_duplicate_groups`. -/
structure DupGroup where
  md5 : String
  size : Int
  count : Nat
  file_ids : List String
  total_wasted : Int
deriving DecidableEq, Repr

/-- `queries.get_duplicate_groups`: group live non-trashed non-shortcut rows
with non-null md5 and size `≥ min_size` by `(md5, size)`, keep groups with
more than one row, order by `size * (count - 1)` descending, and apply the
`LIMIT` (Python `if limit:`, so a zero limit is ignored).  The source builds
`file_ids` as `GROUP_CONCAT(id)` split on `","`, which reassembles the member
id list (Drive ids contain no comma); it is modelled as that list directly. -/
def dup_groups_unsorted (db : DB) (min_size : Int) : List DupGroup :=
  ((groupByKeyF dup_key (db.files.filter (dup_filter min_size))).filter
      (fun g => 1 < g.2.length)).map (fun g =>
    { md5 := g.1.1
      size := g.1.2
      count := g.2.length
      file_ids := g.2.map (·.id)
      total_wasted := g.1.2 * ((g.2.length : Int) - 1) })

/-- The sorted, limited result of `queries.get_duplicate_groups` (see
`dup_groups_unsorted` for the grouping). -/
def get_duplicate_groups (db : DB) (min_size : Int := 0)
    (limit : Option Nat := none) : List DupGroup :=
  let sorted := List.insertionSort (fun a b => b.total_wasted ≤ a.total_wasted)
    (dup_groups_unsorted db min_size)
  match limit with
  | none => sorted
  | some n => if n = 0 then sorted else sorted.take n

/-- Append a child under a parent key, `defaultdict(list)` style. -/
def insertChild (m : List (String × List String)) (k v : String) :
    List (String × List String) :=
  if m.any (fun p => p.1 = k) then
    m.map (fun p => if p.1 = k then (p.1, p.2 ++ [v]) else p)
  else m ++ [(k, [v])]

/-- The row set of the join in `queries.build_children_map`: each `parents`
edge paired with every live non-trashed `files` row whose id is its child. -/
def childrenJoinRows (db : DB) : List (String × String) :=
  db.parents.flatMap (fun e =>
    (db.files.filter (fun f => f.id = e.2 && !f.removed && !f.trashed)).map
      (fun _ => e))

/-- `queries.build_children_map`: `parent_id -> [child_id]` over the join of
edges with live non-trashed child rows (a Python dict in insertion order). -/
def build_children_map (db : DB) : List (String × List String) :=
  (childrenJoinRows db).foldl (fun acc e => insertChild acc e.1 e.2) []

/-- One entry of the API file listing built by `queries.get_files_for_api`
(`calculatedSize` is always `None` there and is omitted). -/
structure ApiFile where
  id : String
  name : Option String := none
  mimeType : String := ""
  size : Option Int := none
  createdTime : Option String := none
  modifiedTime : Option String := none
  webViewLink : Option String := none
  parents : List String := []
  trashed : Bool := false
  starred : Bool := false
  ownedByMe : Bool := false
  md5Checksum : Option String := none
  isShortcut : Bool := false
  shortcutTargetId : Option String := none
deriving DecidableEq, Repr

/-- `queries.get_files_for_api`: non-removed (and by default non-trashed)
rows converted to the API shape, with per-file parent ids. -/
def get_files_for_api (db : DB) (include_trashed : Bool := false) :
    List ApiFile :=
  let rows :=
    if include_trashed then db.files.filter (fun r => !r.removed)
    else db.files.filter (fun r => !r.removed && !r.trashed)
  rows.map (fun r =>
    { id := r.id
      name := r.name
      mimeType := r.mime_type
      size := r.size
      createdTime := r.created_time
      modifiedTime := r.modified_time
      webViewLink := r.web_view_link
      parents := get_parents db r.id
      trashed := r.trashed
      starred := r.starred
      ownedByMe := r.owned_by_me
      md5Checksum := r.md5
      isShortcut := r.is_shortcut
      shortcutTargetId := r.shortcut_target_id })

/-- Rows with `removed = 0 AND trashed = 0` (the filter common to the MIME
breakdown queries). -/
def live_rows (db : DB) : List FileRow :=
  db.files.filter (fun r => !r.removed && !r.trashed)

/-- One entry of a MIME breakdown:
`(mime_type, COUNT(*), SUM(COALESCE(size, 0)))`. -/
structure MimeEntry where
  mime_type : String
  count : Nat
  total_size : Int
deriving DecidableEq, Repr

/-- The grouped entries shared by both MIME breakdown queries. -/
def mimeEntries (db : DB) : List MimeEntry :=
  (groupByKeyF (fun r => r.mime_type) (live_rows db)).map (fun g =>
    { mime_type := g.1
      count := g.2.length
      total_size := (g.2.map (fun r => r.size.getD 0)).sum })

/-- `queries.get_files_by_mime_type`: grouped over live non-trashed rows,
`ORDER BY total_size DESC`; the Python result dict preserves that order. -/
def get_files_by_mime_type (db : DB) : List MimeEntry :=
  List.insertionSort (fun a b => b.total_size ≤ a.total_size) (mimeEntries db)

/-- `health_checks.get_mime_type_breakdown`: same grouping,
`ORDER BY count DESC`. -/
def get_mime_type_breakdown (db : DB) : List MimeEntry :=
  List.insertionSort (fun a b => b.count ≤ a.count) (mimeEntries db)

/-- One row of the `queries.get_large_files` result. -/
structure LargeFile where
  id : String
  name : Option String := none
  mime_type : String := ""
  size : Int := 0
  modified_time : Option String := none
  web_view_link : Option String := none
  path : String := ""
deriving DecidableEq, Repr

/-- The `WHERE` clause of `queries.get_large_files`. -/
def large_filter (min_size : Int) (r : FileRow) : Bool :=
  !r.removed && !r.trashed && r.size.isSome && decide (min_size ≤ r.size.getD 0)

/-- `queries.get_large_files` (filter as `large_filter`): live non-trashed
rows with non-null `size ≥ min_size`, `ORDER BY size DESC LIMIT ?`. -/
def get_large_files (db : DB) (limit : Nat := 100) (min_size : Int := 0) :
    List LargeFile :=
  let sorted := List.insertionSort (fun a b => b.size.getD 0 ≤ a.size.getD 0)
    (db.files.filter (large_filter min_size))
  (sorted.take limit).map (fun r =>
    { id := r.id
      name := r.name
      mime_type := r.mime_type
      size := r.size.getD 0
      modified_time := r.modified_time
      web_view_link := r.web_view_link
      path := get_primary_path db r.id })

/-! ## Cache coordinator (`backend/cache.py`) -/

/-- Sidecar metadata of the primary snapshot cache (`cache.CacheMetadata`). -/
structure CacheMetadata where
  timestamp : String
  file_count : Option Int := none
  total_size : Option Int := none
  last_modified : Option String := none
  cache_version : Int := 1
  validated_count : Int := 0
deriving DecidableEq, Repr

/-- Sidecar metadata of the derived analytics cache
(`cache.AnalyticsCacheMetadata`; `timings_ms` is diagnostic only). -/
structure AnalyticsCacheMetadata where
  computed_at : String
  source_scan_type : String := "full_scan"
  source_cache_timestamp : String
  source_cache_version : Int := 1
  source_file_count : Option Int := none
  source_total_size : Option Int := none
  derived_version : Int := 1
deriving DecidableEq, Repr

/-- `cache.is_analytics_cache_valid`: identity match of the derived cache
against the current primary snapshot metadata (no time enters the check). -/
def is_analytics_cache_valid (a : AnalyticsCacheMetadata)
    (s : CacheMetadata) : Bool :=
  a.source_cache_timestamp == s.timestamp &&
  a.source_cache_version == s.cache_version &&
  (a.source_file_count.isNone || a.source_file_count == s.file_count)

/-- `cache.is_cache_valid_time_based`.  The source parses
`metadata.timestamp` and compares `now - cache_time` with the TTL, returning
`False` when parsing raises; it is embedded as a function of the resulting
age in seconds, `none` standing for an unparseable timestamp. -/
def is_cache_valid_time_based (cache_age_seconds : Option Int)
    (max_age_seconds : Int) : Bool :=
  match cache_age_seconds with
  | some age => age < max_age_seconds
  | none => false

/-- `drive_api.check_recently_modified`: the files-modified-since probe.
Its argument is the outcome of the remote call; the source wraps the call in
`try/except` and returns the empty list when the call raises. -/
def check_recently_modified (api_result : Except String (List String)) :
    List String :=
  match api_result with
  | .ok files => files
  | .error _ => []

/-- `cache.validate_cache_with_drive`: fast TTL check, then the remote probe;
the `except` branch (reached only when re-parsing the timestamp raises,
since `check_recently_modified` never raises) falls back to the TTL check. -/
def validate_cache_with_drive (cache_age_seconds : Option Int)
    (max_age_seconds : Int) (api_result : Except String (List String)) : Bool :=
  if is_cache_valid_time_based cache_age_seconds max_age_seconds then true
  else
    match cache_age_seconds with
    | none => is_cache_valid_time_based none max_age_seconds
    | some _ => (check_recently_modified api_result).length == 0

/-! ## Analytics semantic rules (`backend/analytics.py`) -/

/-- A snapshot file object as the analytics engine sees it.  `modifiedTime`
is the `_parse_iso_date` result, abstracted to epoch seconds (`none` for a
missing or unparseable timestamp). -/
structure AFile where
  id : String := ""
  name : Option String := none
  mimeType : Option String := none
  size : Option Int := none
  calculatedSize : Option Int := none
  modifiedTime : Option Int := none
  parents : List String := []
deriving DecidableEq, Repr

/-- `analytics._is_folder`. -/
def aIsFolder (f : AFile) : Bool :=
  f.mimeType == some folderMime

/-- Substring test, Python `kw in lower`. -/
def strContains (hay needle : String) : Bool :=
  decide (List.IsInfix needle.toList hay.toList)

/-- Python `str.lower()` (character-wise; everything lowercased here is
ASCII, where it agrees with Lean's `Char.toLower`). -/
def py_lower (s : String) : String :=
  String.mk (s.toList.map Char.toLower)

/-- Python `str.startswith(pre)`. -/
def py_startswith (s pre : String) : Bool :=
  pre.toList.isPrefixOf s.toList

/-- `analytics._SEMANTIC_CATEGORIES`, in source order. -/
def SEMANTIC_CATEGORIES : List (String × List String) :=
  [ ("Backup/Archive", ["backup", "backup_", "old", "old_", "archive", "legacy", "bak", "oldbackup"])
  , ("Photos", ["photo", "photos", "picture", "pictures", "images", "camera", "pic", "pics", "img"])
  , ("Work", ["work", "business", "client", "project", "projects", "office", "corporate", "job"])
  , ("Personal", ["personal", "home", "family", "private", "my", "self"])
  , ("Documents", ["document", "doc", "documents", "files", "paperwork"])
  , ("Music", ["music", "audio", "song", "songs", "mp3", "sound", "tunes"])
  , ("Videos", ["video", "videos", "movie", "movies", "film", "films"])
  , ("Downloads", ["download", "downloaded", "temp", "tmp"])
  , ("Code", ["code", "dev", "development", "src", "source", "script", "scripts", "programming"])
  , ("School", ["school", "education", "study", "studies", "course", "courses", "class", "university"])
  ]

/-- `analytics._classify_folder_by_name`: first category (in list order) one
of whose keywords is a substring of the lowercased folder name. -/
def classify_folder_by_name (name : String) : Option String :=
  let lower := py_lower name
  (SEMANTIC_CATEGORIES.find? (fun c => c.2.any (fun kw => strContains lower kw))).map (·.1)

/-- Lowercased mime of a snapshot file, `(child.get("mimeType") or "").lower()`. -/
def mime_lower (c : AFile) : String :=
  py_lower (c.mimeType.getD "")

/-- The direct children the content rule examines: resolve each id in the
snapshot index (a Python dict, modelled as an assoc list) and skip ids that
are missing or folders. -/
def content_children (child_ids : List String)
    (file_by_id : List (String × AFile)) : List AFile :=
  (child_ids.filterMap (fun cid => (file_by_id.find? (fun p => p.1 = cid)).map (·.2))).filter
    (fun c => !aIsFolder c)

/-- Seconds in the source's one-year cutoff. -/
def one_year_seconds : Int := 365 * 24 * 60 * 60

/-- A child counted as old:
`mdt and (now_ts - mdt.timestamp()) > one_year_seconds`. -/
def is_old_child (now_ts : Int) (c : AFile) : Bool :=
  match c.modifiedTime with
  | some t => one_year_seconds < now_ts - t
  | none => false

/-- `analytics._classify_folder_by_content`.  The per-file counters follow the
source's `elif` chain (a file counts as a document only when it matched none
of the image/video/audio prefixes); `old_file_count` is counted independently.
The `> 0.8` comparisons are the source's float divisions, modelled exactly
over `ℚ`. -/
def classify_folder_by_content (child_ids : List String)
    (file_by_id : List (String × AFile)) (now_ts : Int) : Option String :=
  if child_ids.isEmpty then none
  else
    let children := content_children child_ids file_by_id
    let total_files := children.length
    let image_count := children.countP (fun c => py_startswith (mime_lower c) "image/")
    let video_count := children.countP (fun c =>
      ! py_startswith (mime_lower c) "image/" && py_startswith (mime_lower c) "video/")
    let audio_count := children.countP (fun c =>
      ! py_startswith (mime_lower c) "image/" && ! py_startswith (mime_lower c) "video/" &&
        py_startswith (mime_lower c) "audio/")
    let doc_count := children.countP (fun c =>
      ! py_startswith (mime_lower c) "image/" && ! py_startswith (mime_lower c) "video/" &&
        ! py_startswith (mime_lower c) "audio/" &&
        (strContains (mime_lower c) "document" || strContains (mime_lower c) "pdf"))
    let old_file_count := children.countP (is_old_child now_ts)
    if total_files = 0 then none
    else if (0.8 : ℚ) < (image_count : ℚ) / (total_files : ℚ) then some "Photos"
    else if (0.8 : ℚ) < (old_file_count : ℚ) / (total_files : ℚ) then some "Backup/Archive"
    else if (0.8 : ℚ) < (video_count : ℚ) / (total_files : ℚ) then some "Videos"
    else if (0.8 : ℚ) < (audio_count : ℚ) / (total_files : ℚ) then some "Music"
    else if (0.8 : ℚ) < (doc_count : ℚ) / (total_files : ℚ) then some "Documents"
    else none

/-- The category record `analytics.compute_semantic` attaches to a folder. -/
structure FolderCat where
  category : String
  confidence : String
  method : String
deriving DecidableEq, Repr

/-- The per-folder decision of `analytics.compute_semantic`: name rule first
(confidence high), then the content rule over the folder's `children_map`
entry (confidence medium), else uncategorized. -/
def folder_semantic (name : String) (child_ids : List String)
    (file_by_id : List (String × AFile)) (now_ts : Int) : Option FolderCat :=
  match classify_folder_by_name name with
  | some c => some ⟨c, "high", "name"⟩
  | none =>
    match classify_folder_by_content child_ids file_by_id now_ts with
    | some c => some ⟨c, "medium", "content"⟩
    | none => none

/-! ## Mutation traces of the crawl and sync pipelines
(`backend/crawl_full.py`, `backend/sync_changes.py`)

For the temporal claim about token ordering, each run is abstracted to the
sequence of store mutations and transaction commits it issues, in program
order.  `fileMut` is a `files`-row write (`upsert_file`, the `UPDATE` of
`mark_file_removed`), `edgeMut` a `parents` write (`replace_parents`, the
edge deletion of `mark_file_removed`), `setStateEv k` a `sync_state` write. -/

/-- One store event of a crawl/sync run. -/
inductive Ev
  | fileMut
  | edgeMut
  | setStateEv (key : String)
  | commitEv
deriving DecidableEq, Repr

/-- Event is a file-row or edge mutation. -/
def Ev.isDataMut : Ev → Bool
  | .fileMut => true
  | .edgeMut => true
  | _ => false

/-- Event writes `SyncState["start_page_token"]`. -/
def Ev.isTokenWrite : Ev → Bool
  | .setStateEv k => k == "start_page_token"
  | _ => false

/-- Event is a store mutation (anything except a commit). -/
def Ev.isStoreMut : Ev → Bool
  | .commitEv => false
  | _ => true

/-- One change-feed entry (`changes.list` item). -/
structure Change where
  fileId : Option String := none
  removed : Bool := false
  file : Option FileDict := none
deriving DecidableEq, Repr

/-- Events issued for one change in `sync_changes.run_sync`: a removal marks
the file removed (row write + edge delete) when `fileId` is truthy; otherwise
a present `file` payload is upserted and its parents replaced. -/
def sync_change_events (c : Change) : List Ev :=
  if c.removed then
    match c.fileId with
    | some fid => if fid = "" then [] else [.fileMut, .edgeMut]
    | none => []
  else
    match c.file with
    | some _ => [.fileMut, .edgeMut]
    | none => []

/-- The processing loop of `run_sync`: per-change events with a commit after
every 100th change (`if (i + 1) % 100 == 0`). -/
def sync_process_events : List Change → Nat → List Ev
  | [], _ => []
  | c :: cs, i =>
      sync_change_events c ++ (if (i + 1) % 100 = 0 then [.commitEv] else []) ++
        sync_process_events cs (i + 1)

/-- The full mutation trace of `sync_changes.run_sync`: process all changes,
final commit, then (when a `newStartPageToken` was returned and truthy) the
token write followed by the `last_sync_time` write and the final commit. -/
def run_sync_trace (changes : List Change) (new_start_token : Option String) :
    List Ev :=
  sync_process_events changes 0 ++ [.commitEv] ++
    (match new_start_token with
     | some t => if t = "" then [] else [.setStateEv "start_page_token"]
     | none => []) ++
    [.setStateEv "last_sync_time", .commitEv]

/-- Events issued for one enumerated file in `crawl_full.run_full_crawl`:
`upsert_file` always, `replace_parents` when the payload has a truthy id. -/
def crawl_file_events (fd : FileDict) : List Ev :=
  [.fileMut] ++
    (match fd.id with
     | some fid => if fid = "" then [] else [.edgeMut]
     | none => [])

/-- The processing loop of `run_full_crawl`: per-file events with a commit
after every 500th file. -/
def crawl_process_events : List FileDict → Nat → List Ev
  | [], _ => []
  | f :: fs, i =>
      crawl_file_events f ++ (if (i + 1) % 500 = 0 then [.commitEv] else []) ++
        crawl_process_events fs (i + 1)

/-- The full mutation trace of `crawl_full.run_full_crawl`: `init_db` writes
`schema_version` and commits, the processing loop runs with its final commit,
then the finalizing transaction writes the start token, the two timestamps
and the file count, and commits. -/
def run_full_crawl_trace (files : List FileDict) : List Ev :=
  [.setStateEv "schema_version", .commitEv] ++
    crawl_process_events files 0 ++ [.commitEv] ++
    [.setStateEv "start_page_token", .setStateEv "last_full_crawl_time",
     .setStateEv "last_sync_time", .setStateEv "file_count", .commitEv]

/-! ## Shared lemmas about the embedding -/

lemma mem_insertEdge (acc : List (String × String)) (p c : String)
    (e : String × String) : e ∈ insertEdge acc p c ↔ e ∈ acc ∨ e = (p, c) := by
  unfold insertEdge
  by_cases h : acc.any (fun x => x = (p, c))
  · simp only [h, if_true]
    simp only [List.any_eq_true, decide_eq_true_eq] at h
    obtain ⟨x, hx, rfl⟩ := h
    constructor
    · exact Or.inl
    · rintro (he | rfl) <;> assumption
  · simp [h, List.mem_append]

lemma mem_foldl_insertEdge (c : String) (ps : List String) :
    ∀ (acc : List (String × String)) (e : String × String),
      e ∈ ps.foldl (fun a p => insertEdge a p c) acc ↔
        e ∈ acc ∨ ∃ p ∈ ps, e = (p, c) := by
  induction ps with
  | nil => simp
  | cons p ps ih =>
    intro acc e
    rw [List.foldl_cons, ih, mem_insertEdge]
    constructor
    · rintro ((h | h) | ⟨q, hq, rfl⟩)
      · exact Or.inl h
      · exact Or.inr ⟨p, List.mem_cons_self _ _, h⟩
      · exact Or.inr ⟨q, List.mem_cons_of_mem _ hq, rfl⟩
    · rintro (h | ⟨q, hq, rfl⟩)
      · exact Or.inl (Or.inl h)
      · rcases List.mem_cons.mp hq with rfl | hq
        · exact Or.inl (Or.inr rfl)
        · exact Or.inr ⟨q, hq, rfl⟩

lemma replace_parents_mem (db : DB) (cid : String) (ps : List String)
    (e : String × String) :
    e ∈ (replace_parents db cid ps).parents ↔
      (e ∈ db.parents ∧ e.2 ≠ cid) ∨ ∃ p ∈ ps, e = (p, cid) := by
  unfold replace_parents
  rw [mem_foldl_insertEdge]
  simp [List.mem_filter]

lemma upsert_file_parents (db : DB) (fd : FileDict) :
    (upsert_file db fd).parents = db.parents := by
  unfold upsert_file
  cases fd.id with
  | none => rfl
  | some fid =>
    by_cases h : fid = "" <;> by_cases h2 : db.files.any (fun r => r.id = fid) <;>
      simp [h, h2]

lemma upsert_file_exists_row (db : DB) (fd : FileDict) (fid : String)
    (hid : fd.id = some fid) (hne : fid ≠ "") :
    rowOfDict fd fid ∈ (upsert_file db fd).files := by
  unfold upsert_file
  rw [hid]
  simp only [if_neg hne]
  by_cases h : db.files.any (fun r => r.id = fid)
  · simp only [h, if_true]
    simp only [List.any_eq_true, decide_eq_true_eq] at h
    obtain ⟨r0, hr0, hr0id⟩ := h
    exact List.mem_map.mpr ⟨r0, hr0, by simp [hr0id]⟩
  · simp [h]

lemma upsert_file_id_rows (db : DB) (fd : FileDict) (fid : String)
    (hid : fd.id = some fid) (hne : fid ≠ "") :
    ∀ r ∈ (upsert_file db fd).files, r.id = fid → r = rowOfDict fd fid := by
  unfold upsert_file
  rw [hid]
  simp only [if_neg hne]
  by_cases h : db.files.any (fun r => r.id = fid)
  · simp only [h, if_true]
    intro r hr hrid
    obtain ⟨r0, hr0, hr0eq⟩ := List.mem_map.mp hr
    by_cases h0 : r0.id = fid
    · rw [if_pos h0] at hr0eq
      exact hr0eq.symm
    · rw [if_neg h0] at hr0eq
      exact absurd (hr0eq ▸ hrid) h0
  · simp only [h, if_false]
    intro r hr hrid
    rcases List.mem_append.mp hr with hr | hr
    · exact absurd (List.any_eq_true.mpr ⟨r, hr, decide_eq_true hrid⟩) h
    · simpa using hr

lemma mem_foldl_keys {α κ : Type} [DecidableEq κ] (key : α → κ) (l : List α) :
    ∀ (acc : List κ) (k : κ),
      k ∈ l.foldl (fun acc x => if key x ∈ acc then acc else acc ++ [key x]) acc ↔
        k ∈ acc ∨ ∃ x ∈ l, key x = k := by
  induction l with
  | nil => simp
  | cons x l ih =>
    intro acc k
    rw [List.foldl_cons, ih]
    by_cases h : key x ∈ acc
    · simp only [h, if_true]
      constructor
      · rintro (hk | ⟨y, hy, rfl⟩)
        · exact Or.inl hk
        · exact Or.inr ⟨y, List.mem_cons_of_mem _ hy, rfl⟩
      · rintro (hk | ⟨y, hy, rfl⟩)
        · exact Or.inl hk
        · rcases List.mem_cons.mp hy with rfl | hy
          · exact Or.inl h
          · exact Or.inr ⟨y, hy, rfl⟩
    · simp only [h, if_false, List.mem_append, List.mem_singleton]
      constructor
      · rintro ((hk | rfl) | ⟨y, hy, rfl⟩)
        · exact Or.inl hk
        · exact Or.inr ⟨x, List.mem_cons_self _ _, rfl⟩
        · exact Or.inr ⟨y, List.mem_cons_of_mem _ hy, rfl⟩
      · rintro (hk | ⟨y, hy, rfl⟩)
        · exact Or.inl (Or.inl hk)
        · rcases List.mem_cons.mp hy with rfl | hy
          · exact Or.inl (Or.inr rfl)
          · exact Or.inr ⟨y, hy, rfl⟩

lemma mem_firstKeys {α κ : Type} [DecidableEq κ] (key : α → κ) (l : List α)
    (k : κ) : k ∈ firstKeys key l ↔ ∃ x ∈ l, key x = k := by
  unfold firstKeys
  rw [mem_foldl_keys]
  simp

lemma nodup_foldl_keys {α κ : Type} [DecidableEq κ] (key : α → κ) (l : List α) :
    ∀ acc : List κ, acc.Nodup →
      (l.foldl (fun acc x => if key x ∈ acc then acc else acc ++ [key x]) acc).Nodup := by
  induction l with
  | nil => intro acc h; simpa using h
  | cons x l ih =>
    intro acc h
    rw [List.foldl_cons]
    by_cases hx : key x ∈ acc
    · simpa [hx] using ih acc h
    · refine ih _ ?_
      simp only [hx, if_false]
      exact List.Nodup.append h (List.nodup_singleton _)
        (by simpa using fun hmem => hx hmem)

lemma nodup_firstKeys {α κ : Type} [DecidableEq κ] (key : α → κ) (l : List α) :
    (firstKeys key l).Nodup :=
  nodup_foldl_keys key l [] List.nodup_nil

lemma mem_groupByKeyF {α κ : Type} [DecidableEq κ] (key : α → κ) (l : List α)
    (g : κ × List α) :
    g ∈ groupByKeyF key l ↔
      (∃ x ∈ l, key x = g.1) ∧ g.2 = l.filter (fun x => key x = g.1) := by
  unfold groupByKeyF
  constructor
  · intro hg
    obtain ⟨k, hk, hkg⟩ := List.mem_map.mp hg
    have h1 : g.1 = k := by rw [← hkg]
    have h2 : g.2 = l.filter (fun x => key x = g.1) := by
      rw [h1, ← hkg]
    exact ⟨h1 ▸ (mem_firstKeys key l k).mp hk, h2⟩
  · rintro ⟨hex, h2⟩
    refine List.mem_map.mpr ⟨g.1, (mem_firstKeys key l g.1).mpr hex, ?_⟩
    cases g
    simp only at h2
    rw [h2]

lemma groupByKeyF_keys_nodup {α κ : Type} [DecidableEq κ] (key : α → κ)
    (l : List α) : ((groupByKeyF key l).map (·.1)).Nodup := by
  unfold groupByKeyF
  rw [List.map_map]
  have : ((fun x => x.1) ∘ fun k => (k, l.filter (fun x => key x = k))) = id := by
    funext k
    rfl
  rw [this, List.map_id]
  exact nodup_firstKeys key l

lemma groupByKeyF_covers {α κ : Type} [DecidableEq κ] (key : α → κ)
    (l : List α) (x : α) (hx : x ∈ l) :
    ∃ g ∈ groupByKeyF key l, x ∈ g.2 := by
  refine ⟨(key x, l.filter (fun y => key y = key x)), ?_, ?_⟩
  · exact (mem_groupByKeyF key l _).mpr ⟨⟨x, hx, rfl⟩, rfl⟩
  · exact List.mem_filter.mpr ⟨hx, by simp⟩

lemma pairwise_sort_desc {α β : Type} [LinearOrder β] (f : α → β) (l : List α) :
    List.Pairwise (fun a b => f b ≤ f a)
      (List.insertionSort (fun a b => f b ≤ f a) l) :=
  @List.sorted_insertionSort α (fun a b => f b ≤ f a)
    (fun _ _ => inferInstance)
    ⟨fun a b => le_total (f b) (f a)⟩
    ⟨fun _ _ _ h1 h2 => le_trans h2 h1⟩ l

lemma mem_sort_desc {α β : Type} [LinearOrder β] (f : α → β) (l : List α)
    (a : α) : a ∈ List.insertionSort (fun a b => f b ≤ f a) l ↔ a ∈ l :=
  (List.perm_insertionSort (fun a b => f b ≤ f a) l).mem_iff

lemma sync_change_events_cases (c : Change) :
    sync_change_events c = [] ∨ sync_change_events c = [.fileMut, .edgeMut] := by
  unfold sync_change_events
  by_cases hr : c.removed
  · cases hfid : c.fileId with
    | none => simp [hr]
    | some fid => by_cases hf : fid = "" <;> simp [hr, hf]
  · cases hfile : c.file <;> simp [hr]

lemma crawl_file_events_cases (fd : FileDict) :
    crawl_file_events fd = [.fileMut] ∨
      crawl_file_events fd = [.fileMut, .edgeMut] := by
  unfold crawl_file_events
  cases hid : fd.id with
  | none => simp
  | some fid => by_cases hf : fid = "" <;> simp [hf]

lemma sync_process_events_mem (changes : List Change) :
    ∀ (i : Nat) (e : Ev), e ∈ sync_process_events changes i →
      e = .fileMut ∨ e = .edgeMut ∨ e = .commitEv := by
  induction changes with
  | nil => simp [sync_process_events]
  | cons c cs ih =>
    intro i e he
    unfold sync_process_events at he
    rcases List.mem_append.mp he with he1 | he2
    · rcases List.mem_append.mp he1 with he3 | he4
      · rcases sync_change_events_cases c with hc | hc <;> rw [hc] at he3 <;>
          simp at he3
        · rcases he3 with rfl | rfl
          · exact Or.inl rfl
          · exact Or.inr (Or.inl rfl)
      · by_cases hmod : (i + 1) % 100 = 0
        · rw [if_pos hmod] at he4
          simp at he4
          exact Or.inr (Or.inr he4)
        · rw [if_neg hmod] at he4
          simp at he4
    · exact ih (i + 1) e he2

lemma crawl_process_events_mem (files : List FileDict) :
    ∀ (i : Nat) (e : Ev), e ∈ crawl_process_events files i →
      e = .fileMut ∨ e = .edgeMut ∨ e = .commitEv := by
  induction files with
  | nil => simp [crawl_process_events]
  | cons f fs ih =>
    intro i e he
    unfold crawl_process_events at he
    rcases List.mem_append.mp he with he1 | he2
    · rcases List.mem_append.mp he1 with he3 | he4
      · rcases crawl_file_events_cases f with hc | hc <;> rw [hc] at he3 <;>
          simp at he3
        · exact Or.inl he3
        · rcases he3 with rfl | rfl
          · exact Or.inl rfl
          · exact Or.inr (Or.inl rfl)
      · by_cases hmod : (i + 1) % 500 = 0
        · rw [if_pos hmod] at he4
          simp at he4
          exact Or.inr (Or.inr he4)
        · rw [if_neg hmod] at he4
          simp at he4
    · exact ih (i + 1) e he2

/-! ## The claims -/

/-- C1 (counterexample): in `run_sync` the `start_page_token` write is not the
last store mutation of the run — the `last_sync_time` write follows it in the
finalizing transaction.  Concretely, for a sync over an empty change feed with
new token "T1", the trace contains the token write, yet its last store
mutation is the `last_sync_time` write. -/
theorem c1_last_mutation_counterexample :
    ((run_sync_trace [] (some "T1")).filter Ev.isStoreMut).getLast? =
        some (Ev.setStateEv "last_sync_time") ∧
      Ev.setStateEv "start_page_token" ∈ run_sync_trace [] (some "T1") := by
  decide

/-- C1 (amended): in every completed `run_sync` and `run_full_crawl`, the
trace splits into a prefix ending in a commit that contains every file-row
and edge mutation and no `start_page_token` write, and a finalizing suffix
containing no file-row or edge mutation; so the token write (when the run
writes one) happens only after all data mutations are applied and committed,
and a run failing before finalizing never touches the stored token.  (It is,
however, followed by sync-metadata writes, so it is not the run's last store
mutation.) -/
theorem c1_token_write_after_data_mutations :
    (∀ (changes : List Change) (tok : Option String),
      ∃ pre post, run_sync_trace changes tok = pre ++ post ∧
        pre.getLast? = some .commitEv ∧
        (∀ e ∈ pre, e.isTokenWrite = false) ∧
        (∀ e ∈ post, e.isDataMut = false)) ∧
    (∀ files : List FileDict,
      ∃ pre post, run_full_crawl_trace files = pre ++ post ∧
        pre.getLast? = some .commitEv ∧
        (∀ e ∈ pre, e.isTokenWrite = false) ∧
        (∀ e ∈ post, e.isDataMut = false)) := by
  constructor
  · intro changes tok
    refine ⟨sync_process_events changes 0 ++ [.commitEv],
      (match tok with
       | some t => if t = "" then [] else [.setStateEv "start_page_token"]
       | none => []) ++ [.setStateEv "last_sync_time", .commitEv],
      ?_, List.getLast?_concat _, ?_, ?_⟩
    · simp [run_sync_trace, List.append_assoc]
    · intro e he
      rcases List.mem_append.mp he with he1 | he2
      · rcases sync_process_events_mem changes 0 e he1 with rfl | rfl | rfl <;> rfl
      · simp only [List.mem_singleton] at he2
        subst he2
        rfl
    · intro e he
      rcases List.mem_append.mp he with he1 | he2
      · cases tok with
        | none => simp at he1
        | some t =>
          by_cases ht : t = ""
          · simp [ht] at he1
          · simp only [if_neg ht, List.mem_singleton] at he1
            subst he1
            rfl
      · simp only [List.mem_cons, List.mem_singleton] at he2
        rcases he2 with rfl | rfl | h
        · rfl
        · rfl
        · simp at h
  · intro files
    refine ⟨[.setStateEv "schema_version", .commitEv] ++
        crawl_process_events files 0 ++ [.commitEv],
      [.setStateEv "start_page_token", .setStateEv "last_full_crawl_time",
       .setStateEv "last_sync_time", .setStateEv "file_count", .commitEv],
      ?_, ?_, ?_, ?_⟩
    · simp [run_full_crawl_trace, List.append_assoc]
    · have h : [Ev.setStateEv "schema_version", Ev.commitEv] ++
          crawl_process_events files 0 ++ [Ev.commitEv] =
          ([Ev.setStateEv "schema_version", Ev.commitEv] ++
            crawl_process_events files 0) ++ [Ev.commitEv] := by
        simp [List.append_assoc]
      rw [h, List.getLast?_concat]
    · intro e he
      rcases List.mem_append.mp he with he1 | he2
      · rcases List.mem_append.mp he1 with he3 | he4
        · simp only [List.mem_cons, List.mem_singleton] at he3
          rcases he3 with rfl | rfl | h
          · decide
          · rfl
          · simp at h
        · rcases crawl_process_events_mem files 0 e he4 with rfl | rfl | rfl <;> rfl
      · simp only [List.mem_singleton] at he2
        subst he2
        rfl
    · intro e he
      simp only [List.mem_cons, List.mem_singleton] at he
      rcases he with rfl | rfl | rfl | rfl | rfl | h
      · rfl
      · rfl
      · rfl
      · rfl
      · rfl
      · simp at h

/-- C2: upserting a record, replacing its parents, tombstoning it, then
re-upserting it and replacing its parents again leaves a live row for its id
and exactly the second parent set as its in-edges: `upsert_file` clears
`removed` on reinsertion and `replace_parents` deletes-then-reinserts the
child's edge set. -/
theorem c2_tombstone_resurrection (db : DB) (fd : FileDict) (fid : String)
    (ps1 ps2 : List String) (hid : fd.id = some fid) (hne : fid ≠ "") :
    let db3 := replace_parents (upsert_file (mark_file_removed
      (replace_parents (upsert_file db fd) fid ps1) fid) fd) fid ps2
    (∃ r ∈ db3.files, r.id = fid ∧ r.removed = false) ∧
      (∀ p ∈ ps2, (p, fid) ∈ db3.parents) ∧
      (∀ e ∈ db3.parents, e.2 = fid → e.1 ∈ ps2) := by
  intro db3
  refine ⟨?_, ?_, ?_⟩
  · exact ⟨rowOfDict fd fid, upsert_file_exists_row _ fd fid hid hne, rfl, rfl⟩
  · intro p hp
    exact (replace_parents_mem _ fid ps2 (p, fid)).mpr (Or.inr ⟨p, hp, rfl⟩)
  · intro e he h2
    rcases (replace_parents_mem _ fid ps2 e).mp he with ⟨_, hne2⟩ | ⟨p, hp, rfl⟩
    · exact absurd h2 hne2
    · exact hp

/-- C2 witness: the law at a concrete record "F" with parent sets `["A"]` and
`["B"]`. -/
theorem c2_tombstone_resurrection_witness :
    ∃ r ∈ (replace_parents (upsert_file (mark_file_removed
      (replace_parents (upsert_file {} { id := some "F" }) "F" ["A"]) "F")
      { id := some "F" }) "F" ["B"]).files, r.id = "F" ∧ r.removed = false :=
  (c2_tombstone_resurrection {} { id := some "F" } "F" ["A"] ["B"] rfl
    (by decide)).1

lemma mem_get_dup (db : DB) (min_size : Int) (lim : Option Nat) (g : DupGroup)
    (hg : g ∈ get_duplicate_groups db min_size lim) :
    g ∈ dup_groups_unsorted db min_size := by
  have hsort : g ∈ List.insertionSort (fun a b => b.total_wasted ≤ a.total_wasted)
      (dup_groups_unsorted db min_size) := by
    rcases lim with _ | n
    · exact hg
    · by_cases hn : n = 0
      · simpa [get_duplicate_groups, hn] using hg
      · have h := hg
        simp only [get_duplicate_groups, hn, if_false] at h
        exact List.take_subset _ _ h
  exact (mem_sort_desc DupGroup.total_wasted _ g).mp hsort

lemma mem_dup_groups_unsorted (db : DB) (min_size : Int) (g : DupGroup)
    (hg : g ∈ dup_groups_unsorted db min_size) :
    ∃ gg, gg ∈ groupByKeyF dup_key (db.files.filter (dup_filter min_size)) ∧
      1 < gg.2.length ∧ g.md5 = gg.1.1 ∧ g.size = gg.1.2 ∧
      g.count = gg.2.length ∧ g.file_ids = gg.2.map (·.id) ∧
      g.total_wasted = gg.1.2 * ((gg.2.length : Int) - 1) := by
  unfold dup_groups_unsorted at hg
  obtain ⟨gg, hgg, rfl⟩ := List.mem_map.mp hg
  obtain ⟨hmem, hlen⟩ := List.mem_filter.mp hgg
  exact ⟨gg, hmem, by simpa using hlen, rfl, rfl, rfl, rfl, rfl⟩

lemma dup_filter_facts (min_size : Int) (r : FileRow)
    (h : dup_filter min_size r = true) :
    r.md5.isSome = true ∧ r.size.isSome = true ∧ min_size ≤ r.size.getD 0 ∧
      r.trashed = false ∧ r.removed = false ∧ r.is_shortcut = false := by
  unfold dup_filter at h
  simp only [Bool.and_eq_true, Bool.not_eq_true', decide_eq_true_eq] at h
  tauto

lemma dup_group_member_rows (db : DB) (min_size : Int) (lim : Option Nat)
    (g : DupGroup) (hg : g ∈ get_duplicate_groups db min_size lim) :
    g.file_ids.length = g.count ∧ 2 ≤ g.count ∧
    g.total_wasted = g.size * ((g.count : Int) - 1) ∧ min_size ≤ g.size ∧
    ∀ fid ∈ g.file_ids, ∃ r ∈ db.files, r.id = fid ∧ r.md5 = some g.md5 ∧
      r.size = some g.size ∧ r.removed = false ∧ r.trashed = false ∧
      r.is_shortcut = false := by
  obtain ⟨gg, hmem, hlen, h1, h2, h3, h4, h5⟩ :=
    mem_dup_groups_unsorted db min_size g (mem_get_dup db min_size lim g hg)
  rw [mem_groupByKeyF] at hmem
  obtain ⟨-, hg2⟩ := hmem
  have member_facts : ∀ r ∈ gg.2, r ∈ db.files ∧ dup_filter min_size r = true ∧
      r.md5 = some gg.1.1 ∧ r.size = some gg.1.2 := by
    intro r hr
    rw [hg2] at hr
    obtain ⟨hr1, hr2⟩ := List.mem_filter.mp hr
    obtain ⟨hr3, hr4⟩ := List.mem_filter.mp hr1
    simp only [decide_eq_true_eq] at hr2
    obtain ⟨hmd5, hsz, -, -, -, -⟩ := dup_filter_facts min_size r hr4
    have hkey : (r.md5.getD "", r.size.getD 0) = gg.1 := hr2
    refine ⟨hr3, hr4, ?_, ?_⟩
    · obtain ⟨v, hv⟩ := Option.isSome_iff_exists.mp hmd5
      rw [hv]
      rw [hv] at hkey
      simp only [Option.getD_some] at hkey
      rw [show gg.1.1 = v from by rw [← hkey]]
    · obtain ⟨v, hv⟩ := Option.isSome_iff_exists.mp hsz
      rw [hv]
      rw [hv] at hkey
      simp only [Option.getD_some] at hkey
      rw [show gg.1.2 = v from by rw [← hkey]]
  have hne : gg.2 ≠ [] := by
    intro habs
    rw [habs] at hlen
    simp at hlen
  obtain ⟨r0, hr0⟩ := List.exists_mem_of_ne_nil gg.2 hne
  obtain ⟨-, hr0f, -, hr0sz⟩ := member_facts r0 hr0
  refine ⟨by rw [h4, h3, List.length_map], by omega, by rw [h5, h2, h3], ?_, ?_⟩
  · obtain ⟨-, -, hmin, -, -, -⟩ := dup_filter_facts min_size r0 hr0f
    rw [hr0sz] at hmin
    simpa [h2] using hmin
  · intro fid hfid
    rw [h4] at hfid
    obtain ⟨r, hr, rfl⟩ := List.mem_map.mp hfid
    obtain ⟨hrdb, hrf, hrmd5, hrsz⟩ := member_facts r hr
    obtain ⟨-, -, -, htr, hrm, hsc⟩ := dup_filter_facts min_size r hrf
    exact ⟨r, hrdb, rfl, by rw [hrmd5, h1], by rw [hrsz, h2], hrm, htr, hsc⟩

/-- C3: every group returned by `get_duplicate_groups` has `count ≥ 2` member
ids, all naming live, non-trashed, non-shortcut rows whose md5 and size equal
the group's, with `size ≥ min_size` and `total_wasted = size * (count - 1)`,
and the returned list is ordered by `total_wasted` descending. -/
theorem c3_duplicate_groups_invariant (db : DB) (min_size : Int)
    (lim : Option Nat) :
    (∀ g ∈ get_duplicate_groups db min_size lim,
      g.file_ids.length = g.count ∧ 2 ≤ g.count ∧
      g.total_wasted = g.size * ((g.count : Int) - 1) ∧ min_size ≤ g.size ∧
      ∀ fid ∈ g.file_ids, ∃ r ∈ db.files, r.id = fid ∧ r.md5 = some g.md5 ∧
        r.size = some g.size ∧ r.removed = false ∧ r.trashed = false ∧
        r.is_shortcut = false) ∧
    List.Pairwise (fun a b => b.total_wasted ≤ a.total_wasted)
      (get_duplicate_groups db min_size lim) := by
  constructor
  · exact fun g hg => dup_group_member_rows db min_size lim g hg
  · have hall : List.Pairwise (fun a b => b.total_wasted ≤ a.total_wasted)
        (List.insertionSort (fun a b => b.total_wasted ≤ a.total_wasted)
          (dup_groups_unsorted db min_size)) :=
      pairwise_sort_desc DupGroup.total_wasted _
    rcases lim with _ | n
    · exact hall
    · by_cases hn : n = 0
      · simpa [get_duplicate_groups, hn] using hall
      · simp only [get_duplicate_groups, hn, if_false]
        exact List.Pairwise.sublist (List.take_sublist _ _) hall

/-- C4: derived-analytics cache validity is exactly the source-identity match
(timestamps and cache versions equal, and the recorded source file count
equal or absent); `is_analytics_cache_valid` takes no clock input, so no TTL
enters, and bumping the primary's `file_count` from 10 to 11 while the
derived sidecar still records 10 flips the check to false. -/
theorem c4_analytics_cache_identity :
    (∀ (a : AnalyticsCacheMetadata) (s : CacheMetadata),
      is_analytics_cache_valid a s = true ↔
        (a.source_cache_timestamp = s.timestamp ∧
         a.source_cache_version = s.cache_version ∧
         (a.source_file_count = s.file_count ∨ a.source_file_count = none))) ∧
    is_analytics_cache_valid
      { computed_at := "C", source_cache_timestamp := "T",
        source_cache_version := 1, source_file_count := some 10 }
      { timestamp := "T", cache_version := 1, file_count := some 10 } = true ∧
    is_analytics_cache_valid
      { computed_at := "C", source_cache_timestamp := "T",
        source_cache_version := 1, source_file_count := some 10 }
      { timestamp := "T", cache_version := 1, file_count := some 11 } = false := by
  refine ⟨?_, by decide, by decide⟩
  intro a s
  unfold is_analytics_cache_valid
  simp only [Bool.and_eq_true, Bool.or_eq_true, beq_iff_eq,
    Option.isNone_iff_eq_none]
  tauto

/-- C5: contrary to the claim (and to the source's own comment "Return empty
list on error - we'll fall back to time-based validation"), a failing remote
probe does not fall back to the strict time check: `check_recently_modified`
swallows the error into an empty list, which `validate_cache_with_drive`
reads as "no changes", so a 100-day-old snapshot with a 30-day TTL validates
as fresh when the probe errors, even though the time check alone rejects it. -/
theorem c5_probe_error_still_validates :
    validate_cache_with_drive (some 8640000) 2592000
        (Except.error "network unreachable") = true ∧
      is_cache_valid_time_based (some 8640000) 2592000 = false := by
  decide

/-- Store for the C6 divergence: file "F" has parents "A" (itself inside
folder "C") and root folder "B", so its paths are `C/A` (length 2, found
first by the depth-first walk) and `B` (length 1, the shortest). -/
def pathClaimDB : DB :=
  { files := [ { id := "C", name := some "C" }, { id := "A", name := some "A" },
               { id := "B", name := some "B" }, { id := "F", name := some "F" } ]
    parents := [("A", "F"), ("B", "F"), ("C", "A")] }

/-- C6: `get_primary_path` calls `get_paths` with `max_paths = 1` and so
returns the first depth-first path, not the shortest, contradicting its own
docstring "primary (shortest) path": on `pathClaimDB` it answers "/C/A"
although the enumerated paths `[["C","A"], ["B"]]` contain the strictly
shorter "/B".  A node with no in-edges does resolve to "Root". -/
theorem c6_primary_path_not_shortest :
    get_primary_path pathClaimDB "F" = "/C/A" ∧
      get_paths pathClaimDB "F" 5 50 = [["C", "A"], ["B"]] ∧
      get_primary_path pathClaimDB "B" = "Root" := by
  decide

lemma mimeEntries_keys (db : DB) :
    (mimeEntries db).map (fun e => e.mime_type) =
      firstKeys (fun r => r.mime_type) (live_rows db) := by
  unfold mimeEntries groupByKeyF
  rw [List.map_map, List.map_map]
  exact List.map_id' _

lemma mem_mimeEntries (db : DB) (e : MimeEntry) (he : e ∈ mimeEntries db) :
    e.count = ((live_rows db).filter
        (fun r => r.mime_type = e.mime_type)).length ∧
      e.total_size = (((live_rows db).filter
        (fun r => r.mime_type = e.mime_type)).map (fun r => r.size.getD 0)).sum := by
  unfold mimeEntries at he
  obtain ⟨g, hg, rfl⟩ := List.mem_map.mp he
  obtain ⟨-, h2⟩ := (mem_groupByKeyF _ _ g).mp hg
  constructor
  · simp only
    rw [h2]
  · simp only
    rw [h2]

/-- Store for the C7 divergence: mime "x" has 1 live row totalling 100 bytes,
"y" has 3 rows totalling 30, "z" has 2 rows totalling 2. -/
def mimeClaimDB : DB :=
  { files := [ { id := "x1", mime_type := "x", size := some 100 },
               { id := "y1", mime_type := "y", size := some 10 },
               { id := "y2", mime_type := "y", size := some 10 },
               { id := "y3", mime_type := "y", size := some 10 },
               { id := "z1", mime_type := "z", size := some 1 },
               { id := "z2", mime_type := "z", size := some 1 } ] }

/-- C7 (counterexample): the query-layer MIME breakdown is not ordered by
count — on `mimeClaimDB` it returns the entries in total-size order with
counts `[1, 3, 2]`, which is neither descending nor ascending by count. -/
theorem c7_not_ordered_by_count :
    (get_files_by_mime_type mimeClaimDB).map
        (fun e => (e.mime_type, e.count, e.total_size)) =
        [("x", 1, 100), ("y", 3, 30), ("z", 2, 2)] ∧
      ¬ List.Pairwise (fun a b => b.count ≤ a.count)
        (get_files_by_mime_type mimeClaimDB) ∧
      ¬ List.Pairwise (fun a b => a.count ≤ b.count)
        (get_files_by_mime_type mimeClaimDB) := by
  decide

/-- C7 (amended): `get_files_by_mime_type` returns one entry per distinct
mime type over live non-trashed rows, carrying that type's row count and
total size, ordered by total size descending; the health-check variant
`get_mime_type_breakdown` is the one ordered by count descending. -/
theorem c7_mime_breakdown_contents (db : DB) :
    ((get_files_by_mime_type db).map (fun e => e.mime_type)).Nodup ∧
    (∀ m : String,
      m ∈ (get_files_by_mime_type db).map (fun e => e.mime_type) ↔
        m ∈ (live_rows db).map (fun r => r.mime_type)) ∧
    (∀ e ∈ get_files_by_mime_type db,
      e.count = ((live_rows db).filter
          (fun r => r.mime_type = e.mime_type)).length ∧
      e.total_size = (((live_rows db).filter
          (fun r => r.mime_type = e.mime_type)).map
        (fun r => r.size.getD 0)).sum) ∧
    List.Pairwise (fun a b => b.total_size ≤ a.total_size)
      (get_files_by_mime_type db) ∧
    List.Pairwise (fun a b => b.count ≤ a.count)
      (get_mime_type_breakdown db) := by
  have hperm : List.Perm (get_files_by_mime_type db) (mimeEntries db) :=
    List.perm_insertionSort _ _
  refine ⟨?_, ?_, ?_, ?_, ?_⟩
  · rw [(hperm.map (fun e => e.mime_type)).nodup_iff, mimeEntries_keys]
    exact nodup_firstKeys _ _
  · intro m
    rw [(hperm.map (fun e => e.mime_type)).mem_iff, mimeEntries_keys,
      mem_firstKeys]
    simp [List.mem_map]
  · intro e he
    exact mem_mimeEntries db e (hperm.mem_iff.mp he)
  · exact pairwise_sort_desc MimeEntry.total_size (mimeEntries db)
  · exact pairwise_sort_desc MimeEntry.count (mimeEntries db)

lemma q_thresh (k n : Nat) (hn : 0 < n) :
    ((0.8 : ℚ) < (k : ℚ) / (n : ℚ)) ↔ 4 * n < 5 * k := by
  rw [show (0.8 : ℚ) = 4 / 5 by norm_num,
    div_lt_div_iff₀ (by norm_num) (by exact_mod_cast hn)]
  constructor
  · intro h
    have h' : ((4 * n : Nat) : ℚ) < ((5 * k : Nat) : ℚ) := by push_cast; linarith
    exact_mod_cast h'
  · intro h
    have h' : ((4 * n : Nat) : ℚ) < ((5 * k : Nat) : ℚ) := by exact_mod_cast h
    push_cast at h'
    linarith

/-- The content rule as the spec words it: strict greater-than-80% shares of
direct non-folder children decide Photos, Backup/Archive, Videos, Music,
Documents in that order, here with the exact integer comparison
`4 * total < 5 * matching` equivalent to `matching / total > 0.8`. -/
def content_rule_spec (child_ids : List String)
    (file_by_id : List (String × AFile)) (now_ts : Int) : Option String :=
  if child_ids.isEmpty then none
  else
    let children := content_children child_ids file_by_id
    let total_files := children.length
    let image_count := children.countP (fun c => py_startswith (mime_lower c) "image/")
    let video_count := children.countP (fun c =>
      ! py_startswith (mime_lower c) "image/" && py_startswith (mime_lower c) "video/")
    let audio_count := children.countP (fun c =>
      ! py_startswith (mime_lower c) "image/" && ! py_startswith (mime_lower c) "video/" &&
        py_startswith (mime_lower c) "audio/")
    let doc_count := children.countP (fun c =>
      ! py_startswith (mime_lower c) "image/" && ! py_startswith (mime_lower c) "video/" &&
        ! py_startswith (mime_lower c) "audio/" &&
        (strContains (mime_lower c) "document" || strContains (mime_lower c) "pdf"))
    let old_file_count := children.countP (is_old_child now_ts)
    if total_files = 0 then none
    else if 4 * total_files < 5 * image_count then some "Photos"
    else if 4 * total_files < 5 * old_file_count then some "Backup/Archive"
    else if 4 * total_files < 5 * video_count then some "Videos"
    else if 4 * total_files < 5 * audio_count then some "Music"
    else if 4 * total_files < 5 * doc_count then some "Documents"
    else none

lemma classify_content_eq_spec (cids : List String)
    (idx : List (String × AFile)) (now_ts : Int) :
    classify_folder_by_content cids idx now_ts =
      content_rule_spec cids idx now_ts := by
  unfold classify_folder_by_content content_rule_spec
  by_cases hempty : cids.isEmpty
  · simp [hempty]
  · simp only [hempty, if_false]
    by_cases hn : (content_children cids idx).length = 0
    · simp [hn]
    · have hpos : 0 < (content_children cids idx).length := Nat.pos_of_ne_zero hn
      simp only [q_thresh _ _ hpos]

/-- Snapshot index for the C8 boundary case: nine image children and one
plain-text child under a folder whose name matches no category keyword. -/
def nineImagesIdx : List (String × AFile) :=
  [ ("i1", { id := "i1", mimeType := some "image/jpeg" })
  , ("i2", { id := "i2", mimeType := some "image/jpeg" })
  , ("i3", { id := "i3", mimeType := some "image/jpeg" })
  , ("i4", { id := "i4", mimeType := some "image/jpeg" })
  , ("i5", { id := "i5", mimeType := some "image/jpeg" })
  , ("i6", { id := "i6", mimeType := some "image/jpeg" })
  , ("i7", { id := "i7", mimeType := some "image/jpeg" })
  , ("i8", { id := "i8", mimeType := some "image/jpeg" })
  , ("i9", { id := "i9", mimeType := some "image/jpeg" })
  , ("t1", { id := "t1", mimeType := some "text/plain" }) ]

/-- Snapshot index for the C8 boundary case: eight image children and two
plain-text children (exactly 80% images, not strictly more). -/
def eightImagesIdx : List (String × AFile) :=
  [ ("i1", { id := "i1", mimeType := some "image/jpeg" })
  , ("i2", { id := "i2", mimeType := some "image/jpeg" })
  , ("i3", { id := "i3", mimeType := some "image/jpeg" })
  , ("i4", { id := "i4", mimeType := some "image/jpeg" })
  , ("i5", { id := "i5", mimeType := some "image/jpeg" })
  , ("i6", { id := "i6", mimeType := some "image/jpeg" })
  , ("i7", { id := "i7", mimeType := some "image/jpeg" })
  , ("i8", { id := "i8", mimeType := some "image/jpeg" })
  , ("t1", { id := "t1", mimeType := some "text/plain" })
  , ("t2", { id := "t2", mimeType := some "text/plain" }) ]

/-- C8: the content rule of `compute_semantic` equals the spec's strict
greater-than-80% chain (Photos, Backup/Archive, Videos, Music, Documents, in
that order, over direct non-folder children); a keyword-free folder gets the
content category with confidence "medium" and method "content"; and at the
boundary, 9 images out of 10 children yield Photos while 8 out of 10 yield
no content category. -/
theorem c8_content_rule_thresholds :
    (∀ (cids : List String) (idx : List (String × AFile)) (now_ts : Int),
      classify_folder_by_content cids idx now_ts =
        content_rule_spec cids idx now_ts) ∧
    (∀ (name : String) (cids : List String) (idx : List (String × AFile))
        (now_ts : Int), classify_folder_by_name name = none →
      folder_semantic name cids idx now_ts =
        (content_rule_spec cids idx now_ts).map
          (fun c => ⟨c, "medium", "content"⟩)) ∧
    folder_semantic "zz" (nineImagesIdx.map Prod.fst) nineImagesIdx 0 =
      some ⟨"Photos", "medium", "content"⟩ ∧
    folder_semantic "zz" (eightImagesIdx.map Prod.fst) eightImagesIdx 0 =
      none := by
  refine ⟨classify_content_eq_spec, ?_, ?_, ?_⟩
  · intro name cids idx now_ts hname
    unfold folder_semantic
    rw [hname, classify_content_eq_spec]
    cases content_rule_spec cids idx now_ts <;> rfl
  · unfold folder_semantic
    rw [show classify_folder_by_name "zz" = none from by decide,
      classify_content_eq_spec]
    decide
  · unfold folder_semantic
    rw [show classify_folder_by_name "zz" = none from by decide,
      classify_content_eq_spec]
    decide

lemma mem_insertChild_val (m : List (String × List String)) (k v : String)
    (e : String × List String) (he : e ∈ insertChild m k v) (c : String)
    (hc : c ∈ e.2) : (∃ p ∈ m, c ∈ p.2) ∨ c = v := by
  unfold insertChild at he
  by_cases hk : m.any (fun p => p.1 = k)
  · rw [if_pos hk] at he
    obtain ⟨p, hp, hpe⟩ := List.mem_map.mp he
    by_cases hpk : p.1 = k
    · rw [if_pos hpk] at hpe
      rw [← hpe] at hc
      rcases List.mem_append.mp hc with h1 | h2
      · exact Or.inl ⟨p, hp, h1⟩
      · exact Or.inr (List.mem_singleton.mp h2)
    · rw [if_neg hpk] at hpe
      rw [← hpe] at hc
      exact Or.inl ⟨p, hp, hc⟩
  · rw [if_neg hk] at he
    rcases List.mem_append.mp he with h1 | h2
    · exact Or.inl ⟨e, h1, hc⟩
    · rw [List.mem_singleton.mp h2] at hc
      exact Or.inr (List.mem_singleton.mp hc)

lemma children_map_vals (c : String) (pairs : List (String × String)) :
    ∀ m : List (String × List String),
      (∃ e ∈ pairs.foldl (fun acc pr => insertChild acc pr.1 pr.2) m, c ∈ e.2) →
        (∃ p ∈ m, c ∈ p.2) ∨ ∃ pr ∈ pairs, pr.2 = c := by
  induction pairs with
  | nil => intro m h; exact Or.inl (by simpa using h)
  | cons pr prs ih =>
    intro m h
    rw [List.foldl_cons] at h
    rcases ih (insertChild m pr.1 pr.2) h with h1 | h2
    · obtain ⟨e, he, hc⟩ := h1
      rcases mem_insertChild_val m pr.1 pr.2 e he c hc with h3 | rfl
      · exact Or.inl h3
      · exact Or.inr ⟨pr, List.mem_cons_self _ _, rfl⟩
    · obtain ⟨q, hq, hqc⟩ := h2
      exact Or.inr ⟨q, List.mem_cons_of_mem _ hq, hqc⟩

/-- Store for the C9 divergence: removed folder "P" still referenced as the
parent of the live file "Cc". -/
def tombstoneClaimDB : DB :=
  { files := [ { id := "P", mime_type := "application/vnd.google-apps.folder",
                 removed := true },
               { id := "Cc" } ]
    parents := [("P", "Cc")] }

/-- C9 (counterexample): a tombstoned row is not invisible to every default
read — on `tombstoneClaimDB` the removed row "P" appears as a children-map
key and inside the live file's `parents` list of the API listing, because the
children-map join and `get_parents` only filter the child side. -/
theorem c9_removed_parent_still_visible :
    tombstoneClaimDB.files.any (fun r => r.id = "P" && r.removed) = true ∧
      (build_children_map tombstoneClaimDB).map Prod.fst = ["P"] ∧
      (get_files_for_api tombstoneClaimDB false).map
        (fun f => (f.id, f.parents)) = [("Cc", ["P"])] := by
  decide

/-- C9 (amended): a tombstoned id yields no record from `get_file_by_id`, no
row in `get_all_files` with default flags, no child occurrence in the
children map, and no entry in the API listing; it may still appear as a
children-map key or in a live row's parents list. -/
theorem c9_tombstones_hidden (db : DB) (fid : String)
    (h : ∀ r ∈ db.files, r.id = fid → r.removed = true) :
    get_file_by_id db fid = none ∧
      (∀ r ∈ get_all_files db false false, r.id ≠ fid) ∧
      (∀ e ∈ build_children_map db, fid ∉ e.2) ∧
      (∀ f ∈ get_files_for_api db false, f.id ≠ fid) := by
  refine ⟨?_, ?_, ?_, ?_⟩
  · cases hf : db.files.find? (fun r => r.id = fid && !r.removed) with
    | none => exact hf
    | some r =>
      have hp := List.find?_some hf
      simp only [Bool.and_eq_true, decide_eq_true_eq, Bool.not_eq_true'] at hp
      have hm := List.mem_of_find?_eq_some hf
      rw [h r hm hp.1] at hp
      exact absurd hp.2 (by simp)
  · intro r hr
    obtain ⟨hrdb, hcond⟩ := List.mem_filter.mp hr
    simp only [Bool.false_or, Bool.and_eq_true, Bool.not_eq_true'] at hcond
    intro hrid
    rw [h r hrdb hrid] at hcond
    exact absurd hcond.1 (by simp)
  · intro e he hc
    rcases children_map_vals fid (childrenJoinRows db) []
        ⟨e, he, hc⟩ with h1 | h2
    · simp at h1
    · obtain ⟨pr, hpr, hpr2⟩ := h2
      unfold childrenJoinRows at hpr
      rw [List.mem_flatMap] at hpr
      obtain ⟨edge, hedge, hpr3⟩ := hpr
      obtain ⟨f, hf, hfe⟩ := List.mem_map.mp hpr3
      obtain ⟨hfdb, hfc⟩ := List.mem_filter.mp hf
      simp only [Bool.and_eq_true, decide_eq_true_eq, Bool.not_eq_true'] at hfc
      have hfid : f.id = fid := by rw [hfc.1.1, hfe, hpr2]
      rw [h f hfdb hfid] at hfc
      exact absurd hfc.1.2 (by simp)
  · intro f hf
    unfold get_files_for_api at hf
    simp only [Bool.false_eq_true, if_false] at hf
    obtain ⟨r, hr, hre⟩ := List.mem_map.mp hf
    obtain ⟨hrdb, hcond⟩ := List.mem_filter.mp hr
    simp only [Bool.and_eq_true, Bool.not_eq_true'] at hcond
    intro hfid
    have hrid : r.id = fid := by rw [← hfid, ← hre]
    rw [h r hrdb hrid] at hcond
    exact absurd hcond.1 (by simp)

/-- C9 witness: the amended invisibility at a store holding one removed
row "R". -/
theorem c9_tombstones_hidden_witness :
    get_file_by_id { files := [{ id := "R", removed := true }] } "R" = none :=
  (c9_tombstones_hidden { files := [{ id := "R", removed := true }] } "R"
    (by decide)).1

lemma mem_get_large_files (db : DB) (limit : Nat) (min_size : Int)
    (f : LargeFile) (hf : f ∈ get_large_files db limit min_size) :
    ∃ r ∈ db.files, large_filter min_size r = true ∧ f.id = r.id := by
  unfold get_large_files at hf
  obtain ⟨r, hr, hre⟩ := List.mem_map.mp hf
  have hr2 : r ∈ List.insertionSort (fun a b => b.size.getD 0 ≤ a.size.getD 0)
      (db.files.filter (large_filter min_size)) := List.take_subset _ _ hr
  have hr3 : r ∈ db.files.filter (large_filter min_size) :=
    (mem_sort_desc (fun x => x.size.getD 0) _ r).mp hr2
  obtain ⟨hrdb, hrf⟩ := List.mem_filter.mp hr3
  exact ⟨r, hrdb, hrf, by rw [← hre]⟩

/-- C10: a record upserted with a falsy size (absent, null, empty string or
zero) stores `size` as SQL NULL, and its id can therefore never appear in a
duplicate group (which requires a non-null size) nor in the large-files
result, whatever its md5. -/
theorem c10_falsy_size_stored_null (db : DB) (fd : FileDict) (fid : String)
    (min_size : Int) (lim : Option Nat) (limit : Nat)
    (hid : fd.id = some fid) (hne : fid ≠ "") (hsz : fd.size.truthy = false) :
    (∀ r ∈ (upsert_file db fd).files, r.id = fid → r.size = none) ∧
      (∀ g ∈ get_duplicate_groups (upsert_file db fd) min_size lim,
        fid ∉ g.file_ids) ∧
      (∀ f ∈ get_large_files (upsert_file db fd) limit min_size,
        f.id ≠ fid) := by
  have hnull : ∀ r ∈ (upsert_file db fd).files, r.id = fid → r.size = none := by
    intro r hr hrid
    rw [upsert_file_id_rows db fd fid hid hne r hr hrid]
    unfold rowOfDict sizeColumn
    simp [hsz]
  refine ⟨hnull, ?_, ?_⟩
  · intro g hg hfid
    obtain ⟨-, -, -, -, hmem⟩ :=
      dup_group_member_rows (upsert_file db fd) min_size lim g hg
    obtain ⟨r, hrdb, hrid, -, hrsz, -⟩ := hmem fid hfid
    rw [hnull r hrdb hrid] at hrsz
    exact Option.noConfusion hrsz
  · intro f hf hfid
    obtain ⟨r, hrdb, hrf, hfr⟩ :=
      mem_get_large_files (upsert_file db fd) limit min_size f hf
    have hrid : r.id = fid := by rw [← hfr, hfid]
    unfold large_filter at hrf
    simp only [Bool.and_eq_true] at hrf
    rw [hnull r hrdb hrid] at hrf
    exact absurd hrf.1.2 (by simp)

/-- Payload for the C10 witness: id "Z", size 0 (falsy), sharing md5 "abc"
with a stored 5-byte file. -/
def zeroSizeDict : FileDict :=
  { id := some "Z", size := SizeVal.int 0, md5Checksum := some "abc" }

/-- C10 witness: the stored row for the zero-size payload has a NULL size
column. -/
theorem c10_falsy_size_stored_null_witness :
    (rowOfDict zeroSizeDict "Z").size = none :=
  (c10_falsy_size_stored_null
      { files := [{ id := "G", md5 := some "abc", size := some 5 }] }
      zeroSizeDict "Z" 0 none 100 rfl (by decide) rfl).1
    (rowOfDict zeroSizeDict "Z") (by decide) rfl
